import Mathlib

/-! go-workers: the fetch primitive and the parallel multi-fetch handler.

A shallow embedding of

* `internal/fetcher/fetcher.go` (`Fetch`),
* `internal/api/handler.go` (`Handler`),
* the `/multi-fetch` route of `cmd/api-server/main.go`,

followed by the properties proved about them.

Go `string` and `[]byte` values are modelled as `String`.  The network
(`http.Get`) and the JSON decoder are collaborators outside the repository:
the transport is a parameter of every definition, the decoder is a parameter
of `Handler`, and `json.DecodeStrings` is a model of the standard decoder used
where a concrete payload has to be evaluated.
-/

/-! ## Go errors -/

/-- A Go `error` value: a leaf error carrying its message, or the wrapper that
`fmt.Errorf` builds for the `%w` verb (formatted message plus wrapped error). -/
inductive GoError where
  | errorString (s : String)
  | wrapError (msg : String) (err : GoError)
  deriving DecidableEq

namespace GoError

/-- The method `Error()` of an error value. -/
def Error : GoError → String
  | errorString s => s
  | wrapError msg _ => msg

/-- The method `Unwrap()` of an error value. -/
def Unwrap : GoError → Option GoError
  | errorString _ => none
  | wrapError _ err => some err

end GoError

namespace fmt

/-- The call `fmt.Errorf(pre + "%w", err)`: the message is `pre` followed by
`err.Error()` and the result wraps `err`. -/
def Errorf (pre : String) (err : GoError) : GoError :=
  GoError.wrapError (pre ++ err.Error) err

end fmt

/-! ## The transport -/

namespace io

/-- A response body stream: it delivers chunks of data and then either ends
cleanly (`EOF`) or breaks with a read error. -/
inductive Reader where
  | EOF
  | fail (err : GoError)
  | data (p : String) (next : Reader)
  deriving DecidableEq

/-- The loop of `io.ReadAll`: append what each read delivers to the buffer `b`;
a clean end of stream is reported as no error, a read error is returned together
with what was read so far. -/
def readAllFrom (b : String) : Reader → String × Option GoError
  | Reader.EOF => (b, none)
  | Reader.fail err => (b, some err)
  | Reader.data p next => readAllFrom (b ++ p) next

/-- The function `io.ReadAll`, which starts from the empty buffer. -/
def ReadAll (r : Reader) : String × Option GoError :=
  readAllFrom "" r

end io

namespace http

/-- The fields of `http.Response` that exist for `Fetch`: the status code and the
body stream. -/
structure Response where
  StatusCode : Nat
  Body : io.Reader
  deriving DecidableEq

/-- What one call of `http.Get` returns: a response, or an error. -/
inductive GetResult where
  | ok (resp : Response)
  | error (err : GoError)
  deriving DecidableEq

/-- The behaviour of `http.Get` during one call of `Fetch`. -/
abbrev Get := String → GetResult

end http

/-! ## `internal/fetcher/fetcher.go` -/

namespace fetcher

/-- The function `Fetch`: one GET on `url`, then the whole body is read.  Returns the
pair `(string, error)` of the Go function, `none` standing for a nil error. -/
def Fetch (httpGet : http.Get) (url : String) : String × Option GoError :=
  match httpGet url with
  | http.GetResult.error err => ("", some (fmt.Errorf "erreur requête GET: " err))
  | http.GetResult.ok resp =>
    match io.ReadAll resp.Body with
    | (_, some err) => ("", some (fmt.Errorf "erreur lecture body: " err))
    | (body, none) => (body, none)

end fetcher

/-! ## The JSON decoder (standard library, modelled) -/

namespace json

/-- A parsed JSON value.  Numbers keep no payload: no target of the decoder here is
numeric. -/
inductive Value where
  | null
  | bool (b : Bool)
  | number
  | string (s : String)
  | array (elems : List Value)
  | object (members : List (String × Value))

/-- The error kinds of the decoder: `malformed` stands for `io.EOF`,
`io.ErrUnexpectedEOF` and `*json.SyntaxError`, `typeMismatch` for
`*json.UnmarshalTypeError`. -/
inductive DecodeError where
  | malformed
  | typeMismatch
  deriving DecidableEq

/-- JSON white space. -/
def isSpace (c : Char) : Bool :=
  c == ' ' || c == '\t' || c == '\r' || c == '\n'

/-- Drop leading white space. -/
def skipSpace : List Char → List Char
  | [] => []
  | c :: cs => if isSpace c then skipSpace cs else c :: cs

/-- The value of a hexadecimal digit. -/
def hexDigit (c : Char) : Option Nat :=
  if '0' ≤ c ∧ c ≤ '9' then some (c.toNat - '0'.toNat)
  else if 'a' ≤ c ∧ c ≤ 'f' then some (c.toNat - 'a'.toNat + 10)
  else if 'A' ≤ c ∧ c ≤ 'F' then some (c.toNat - 'A'.toNat + 10)
  else none

/-- Read a `\\uXXXX` escape at the head of the input and return its code unit. -/
def getu4 : List Char → Option Nat
  | '\\' :: 'u' :: a :: b :: c :: d :: _ =>
    match hexDigit a, hexDigit b, hexDigit c, hexDigit d with
    | some x, some y, some z, some w => some (((x * 16 + y) * 16 + z) * 16 + w)
    | _, _, _, _ => none
  | _ => none

/-- Scan a string literal after its opening quote, decoding escapes the way the
decoder unquotes: a valid surrogate pair is one character, a lone surrogate is
U+FFFD, a raw control character is an error.  Returns the text and the input that
follows the closing quote. -/
def scanString : Nat → List Char → List Char → Option (String × List Char)
  | 0, _, _ => none
  | fuel + 1, acc, cs =>
    match cs with
    | [] => none
    | '"' :: rest => some (String.mk acc, rest)
    | '\\' :: e :: rest =>
      if e = 'u' then
        match getu4 cs with
        | none => none
        | some rr =>
          let rest6 := rest.drop 4
          if 0xd800 ≤ rr ∧ rr < 0xe000 then
            match getu4 rest6 with
            | some rr1 =>
              if rr < 0xdc00 ∧ 0xdc00 ≤ rr1 ∧ rr1 < 0xe000 then
                scanString fuel (acc ++ [Char.ofNat ((rr - 0xd800) * 1024 + (rr1 - 0xdc00) + 0x10000)])
                  (rest6.drop 6)
              else scanString fuel (acc ++ [Char.ofNat 0xfffd]) rest6
            | none => scanString fuel (acc ++ [Char.ofNat 0xfffd]) rest6
          else scanString fuel (acc ++ [Char.ofNat rr]) rest6
      else if e = '"' ∨ e = '\\' ∨ e = '/' then scanString fuel (acc ++ [e]) rest
      else if e = 'b' then scanString fuel (acc ++ [Char.ofNat 8]) rest
      else if e = 'f' then scanString fuel (acc ++ [Char.ofNat 12]) rest
      else if e = 'n' then scanString fuel (acc ++ ['\n']) rest
      else if e = 'r' then scanString fuel (acc ++ ['\r']) rest
      else if e = 't' then scanString fuel (acc ++ ['\t']) rest
      else none
    | c :: rest =>
      if c = '\\' ∨ c.toNat < 0x20 then none else scanString fuel (acc ++ [c]) rest

/-- Drop leading decimal digits. -/
def skipDigits : List Char → List Char
  | [] => []
  | c :: cs => if c.isDigit then skipDigits cs else c :: cs

/-- The optional fraction part of a number. -/
def scanFraction : List Char → Option (List Char)
  | '.' :: d :: rest => if d.isDigit then some (skipDigits rest) else none
  | '.' :: [] => none
  | cs => some cs

/-- The optional exponent part of a number. -/
def scanExponent : List Char → Option (List Char)
  | e :: rest =>
    if e = 'e' ∨ e = 'E' then
      match rest with
      | s :: d :: rest' =>
        if s = '+' ∨ s = '-' then (if d.isDigit then some (skipDigits rest') else none)
        else if s.isDigit then some (skipDigits (d :: rest'))
        else none
      | [d] => if d.isDigit then some [] else none
      | [] => none
    else some (e :: rest)
  | [] => some []

/-- Scan a number literal and return the input that follows it. -/
def scanNumber (cs : List Char) : Option (List Char) :=
  let body := match cs with
    | '-' :: rest => rest
    | _ => cs
  match body with
  | [] => none
  | d :: rest =>
    if d = '0' then (scanFraction rest).bind scanExponent
    else if d.isDigit then (scanFraction (skipDigits rest)).bind scanExponent
    else none

/-- The nesting limit of the scanner. -/
def maxNestingDepth : Nat := 10000

mutual

/-- Scan one JSON value at the head of the input (`fuel` bounds the number of nested
calls, the decoder supplies twice the length of the input; `depth` is the current
nesting).  Returns the value and the input after it. -/
def scanValue : Nat → Nat → List Char → Option (Value × List Char)
  | 0, _, _ => none
  | fuel + 1, depth, cs =>
    match cs with
    | [] => none
    | '"' :: rest => (scanString (rest.length + 1) [] rest).map fun p => (Value.string p.1, p.2)
    | 'n' :: 'u' :: 'l' :: 'l' :: rest => some (Value.null, rest)
    | 't' :: 'r' :: 'u' :: 'e' :: rest => some (Value.bool true, rest)
    | 'f' :: 'a' :: 'l' :: 's' :: 'e' :: rest => some (Value.bool false, rest)
    | '[' :: rest =>
      if depth ≥ maxNestingDepth then none
      else match skipSpace rest with
        | ']' :: rest' => some (Value.array [], rest')
        | rest' => scanElems fuel (depth + 1) [] rest'
    | '{' :: rest =>
      if depth ≥ maxNestingDepth then none
      else match skipSpace rest with
        | '}' :: rest' => some (Value.object [], rest')
        | rest' => scanMembers fuel (depth + 1) [] rest'
    | _ => (scanNumber cs).map fun rest => (Value.number, rest)

/-- Scan the elements of an array after the first element is known to exist. -/
def scanElems : Nat → Nat → List Value → List Char → Option (Value × List Char)
  | 0, _, _, _ => none
  | fuel + 1, depth, acc, cs =>
    match scanValue fuel depth cs with
    | none => none
    | some (v, rest) =>
      match skipSpace rest with
      | ',' :: rest' => scanElems fuel depth (acc ++ [v]) (skipSpace rest')
      | ']' :: rest' => some (Value.array (acc ++ [v]), rest')
      | _ => none

/-- Scan the members of a non-empty object. -/
def scanMembers : Nat → Nat → List (String × Value) → List Char → Option (Value × List Char)
  | 0, _, _, _ => none
  | fuel + 1, depth, acc, cs =>
    match cs with
    | '"' :: rest =>
      match scanString (rest.length + 1) [] rest with
      | none => none
      | some (k, rest1) =>
        match skipSpace rest1 with
        | ':' :: rest2 =>
          match scanValue fuel depth (skipSpace rest2) with
          | none => none
          | some (v, rest3) =>
            match skipSpace rest3 with
            | ',' :: rest4 => scanMembers fuel depth (acc ++ [(k, v)]) (skipSpace rest4)
            | '}' :: rest4 => some (Value.object (acc ++ [(k, v)]), rest4)
            | _ => none
        | _ => none
    | _ => none

end

/-- Store one array element into a `string`: a string literal is stored, `null`
leaves the zero value, anything else is a type mismatch and leaves the zero value. -/
def storeString : Value → String × Option DecodeError
  | Value.string s => (s, none)
  | Value.null => ("", none)
  | _ => ("", some DecodeError.typeMismatch)

/-- The earliest saved error. -/
def firstError : List (Option DecodeError) → Option DecodeError
  | [] => none
  | some e :: _ => some e
  | none :: rest => firstError rest

/-- Unmarshal a value into a `[]string`: `null` leaves the slice nil, an array is
stored element by element (decoding goes on after a mismatch and the earliest error
is returned), any other value is a type mismatch. -/
def unmarshalStrings : Value → List String × Option DecodeError
  | Value.null => ([], none)
  | Value.array elems => (elems.map fun v => (storeString v).1, firstError (elems.map fun v => (storeString v).2))
  | _ => ([], some DecodeError.typeMismatch)

/-- A model of `json.NewDecoder(body).Decode(&urls)` for `urls []string`: the first
JSON value of the stream is read and unmarshalled; what follows that value in the
stream is not looked at.  Returns the pair `(urls, err)`. -/
def DecodeStrings (body : String) : List String × Option DecodeError :=
  let cs := skipSpace body.data
  match scanValue (2 * cs.length + 2) 0 cs with
  | none => ([], some DecodeError.malformed)
  | some (v, _) => unmarshalStrings v

end json

namespace json

/-- The type of a decoder of request bodies into `[]string`, as the pair
`(urls, err)`. -/
abbrev Decoder := String → List String × Option DecodeError

end json

/-! ## The server side of `net/http` -/

namespace http

/-- The fields of an inbound `http.Request` that the handlers read. -/
structure Request where
  Method : String
  Body : String
  deriving DecidableEq

/-- What a handler wrote as response body: plain text, or the JSON encoding of a
string slice (`json.NewEncoder(w).Encode(results)`). -/
inductive Payload where
  | text (s : String)
  | jsonArray (results : List String)
  deriving DecidableEq

/-- What a handler has written to its `http.ResponseWriter`. -/
structure ResponseWriter where
  status : Nat
  contentType : String
  body : Payload
  deriving DecidableEq

/-- The constant `http.MethodPost`. -/
def MethodPost : String := "POST"

/-- The constant `http.StatusOK`. -/
def StatusOK : Nat := 200

/-- The constant `http.StatusBadRequest`. -/
def StatusBadRequest : Nat := 400

/-- The constant `http.StatusMethodNotAllowed`. -/
def StatusMethodNotAllowed : Nat := 405

/-- The function `http.Error`: a plain-text reply with the given status whose body is
the message followed by a newline. -/
def Error (msg : String) (code : Nat) : ResponseWriter :=
  ⟨code, "text/plain; charset=utf-8", Payload.text (msg ++ "\n")⟩

end http

/-! ## `internal/api/handler.go` -/

namespace api

/-- An observable action of a request. -/
inductive Event where
  | decode
  | fetch (g : Nat) (url : String)
  | store (g : Nat) (slot : Nat)
  deriving DecidableEq

/-- The network as the handler meets it: `net g` is the behaviour of `http.Get` for
the call made by the goroutine launched `g`-th. -/
abbrev Transport := Nat → http.Get

/-- The state of the fan-out: the arguments `(i, url)` bound to each launched
goroutine (in launch order), the goroutines that have returned (in completion
order), the shared slice `results`, the `sync.WaitGroup` counter and the actions
performed so far. -/
structure FanOut where
  goroutines : List (Nat × String)
  finished : List Nat
  results : List String
  wg : Int
  events : List Event

/-- The value a goroutine assigns to its slot, from what `fetcher.Fetch` returned
(handler.go lines 29 to 34). -/
def entry (out : String × Option GoError) : String :=
  match out with
  | (_, some err) => "Erreur: " ++ err.Error
  | (data, none) => data

/-- Steps 2 and 3 up to the launch: `results := make([]string, len(urls))`,
`wg.Add(len(urls))`, and one goroutine per `i, url := range urls`. -/
def launch (urls : List String) : FanOut :=
  ⟨urls.enum, [], List.replicate urls.length "", (urls.length : Int), []⟩

/-- Goroutine `g` runs to completion: it calls `fetcher.Fetch(url)`, assigns
`results[i]` and calls `wg.Done()`.  A goroutine runs once: naming one that has
returned, or one that was never launched, changes nothing. -/
def complete (net : Transport) (st : FanOut) (g : Nat) : FanOut :=
  if g ∈ st.finished then st
  else
    match st.goroutines[g]? with
    | none => st
    | some (i, url) =>
      ⟨st.goroutines, st.finished ++ [g],
        st.results.set i (entry (fetcher.Fetch (net g) url)),
        st.wg - 1,
        st.events ++ [Event.fetch g url, Event.store g i]⟩

/-- The goroutines complete in the order `sched`. -/
def run (net : Transport) (st : FanOut) (sched : List Nat) : FanOut :=
  sched.foldl (complete net) st

/-- One execution of a handler: the actions it performed and what it wrote, `none`
when it never gets past `wg.Wait()`. -/
structure Run where
  events : List Event
  response : Option http.ResponseWriter
  deriving DecidableEq

/-- The function `Handler` on request `r`, with decoder `Decode`, network `net` and the
goroutines completing in the order `sched`. -/
def Handler (Decode : json.Decoder) (net : Transport) (sched : List Nat)
    (r : http.Request) : Run :=
  match Decode r.Body with
  | (_, some _) => ⟨[Event.decode], some (http.Error "JSON invalide" http.StatusBadRequest)⟩
  | (urls, none) =>
    let st := run net (launch urls) sched
    ⟨Event.decode :: st.events,
      if st.wg = 0 then
        some ⟨http.StatusOK, "application/json", http.Payload.jsonArray st.results⟩
      else none⟩

/-- The arguments of the `fetcher.Fetch` calls in a trace, with the calling goroutine. -/
def fetchCalls (evs : List Event) : List (Nat × String) :=
  evs.filterMap fun e =>
    match e with
    | Event.fetch g url => some (g, url)
    | _ => none

/-- The assignments to `results` in a trace: goroutine and slot. -/
def stores (evs : List Event) : List (Nat × Nat) :=
  evs.filterMap fun e =>
    match e with
    | Event.store g i => some (g, i)
    | _ => none

/-- The result array in a reply, when the reply carries one. -/
def resultsOf (w : http.ResponseWriter) : Option (List String) :=
  match w.body with
  | http.Payload.jsonArray rs => some rs
  | http.Payload.text _ => none

end api

/-! ## `cmd/api-server/main.go`: the `/multi-fetch` route -/

namespace main

/-- The handler registered for `/multi-fetch`: any method other than POST is answered
with 405 before `api.Handler` is called. -/
def multiFetch (Decode : json.Decoder) (net : api.Transport) (sched : List Nat)
    (r : http.Request) : api.Run :=
  if r.Method ≠ http.MethodPost then
    ⟨[], some (http.Error "Méthode non autorisée" http.StatusMethodNotAllowed)⟩
  else api.Handler Decode net sched r

end main

namespace io

/-- Everything a body stream delivers before it ends or breaks. -/
def Reader.content : Reader → String
  | Reader.EOF => ""
  | Reader.fail _ => ""
  | Reader.data p next => p ++ Reader.content next

/-- How a body stream finishes: `none` for a clean end, the read error otherwise. -/
def Reader.ending : Reader → Option GoError
  | Reader.EOF => none
  | Reader.fail err => some err
  | Reader.data _ next => Reader.ending next

end io

namespace json

/-- The payload format the specification names: the whole body is one JSON array
whose elements are all strings, with only white space around it. -/
def isStringArray (body : String) : Bool :=
  let cs := skipSpace body.data
  match scanValue (2 * cs.length + 2) 0 cs with
  | some (Value.array elems, rest) =>
    elems.all (fun v => match v with
      | Value.string _ => true
      | _ => false) && (skipSpace rest).isEmpty
  | _ => false

end json

namespace url

/-- The `*url.Error` in which `http.Get` reports a failed request: operation, URL and
cause; its message is the operation, the quoted URL, a colon and the cause's message.
The URL is taken to hold no character that the `%q` verb escapes. -/
def Error (Op URL : String) (Err : GoError) : GoError :=
  GoError.wrapError (Op ++ " \"" ++ URL ++ "\": " ++ Err.Error) Err

end url

namespace api

/-- A network on which every GET is answered with status 200 and a body made of the
URL followed by `!`, except for the URL `bad`, whose GET fails with `boom`. -/
def sampleNet : Transport := fun _ url =>
  if url = "bad" then http.GetResult.error (GoError.errorString "boom")
  else http.GetResult.ok ⟨200, io.Reader.data url (io.Reader.data "!" io.Reader.EOF)⟩

/-- A network on which nothing listens on `127.0.0.1:9`, so that the GET of
`http://127.0.0.1:9/` fails with the error `http.Get` returns for a refused connection,
while every other GET is answered with status 200 and a body that reads like the
entry of that failure. -/
def mimicNet : Transport := fun _ u =>
  if u = "http://127.0.0.1:9/" then
    http.GetResult.error
      (url.Error "Get" u (GoError.errorString "dial tcp 127.0.0.1:9: connect: connection refused"))
  else
    http.GetResult.ok ⟨200, io.Reader.data
      "Erreur: erreur requête GET: Get \"http://127.0.0.1:9/\": dial tcp 127.0.0.1:9: connect: connection refused"
      io.Reader.EOF⟩

/-- A network on which nothing listens on `127.0.0.1:9` (the GET fails as on
`mimicNet`) and every other GET is answered with status 200 and the body `ok`. -/
def plainNet : Transport := fun _ u =>
  if u = "http://127.0.0.1:9/" then
    http.GetResult.error
      (url.Error "Get" u (GoError.errorString "dial tcp 127.0.0.1:9: connect: connection refused"))
  else http.GetResult.ok ⟨200, io.Reader.data "ok" io.Reader.EOF⟩

/-- A network on which every GET fails with `boom`. -/
def downNet : Transport := fun _ _ =>
  http.GetResult.error (GoError.errorString "boom")

end api

/-! ## The same code with the network made observable

The definitions above treat `http.Get` as a function.  To count requests, the ones
below thread through the same code the list of GET requests the network has received.
A goroutine started by the `go` statement is in its `fetcher.Fetch` call from then on;
the schedule says when the call returns. -/

namespace http

/-- One call of `http.Get` as an action on the network: `wire` lists the URLs of the GET
requests sent so far; the call sends one more and gets `httpGet url` back. -/
def GetT (httpGet : Get) (url : String) (wire : List String) : GetResult × List String :=
  (httpGet url, wire ++ [url])

end http

namespace fetcher

/-- The function `Fetch` over the observable network: its `http.Get` call is `http.GetT`. -/
def FetchT (httpGet : http.Get) (url : String) (wire : List String) :
    (String × Option GoError) × List String :=
  match http.GetT httpGet url wire with
  | (http.GetResult.error err, wire') =>
    (("", some (fmt.Errorf "erreur requête GET: " err)), wire')
  | (http.GetResult.ok resp, wire') =>
    match io.ReadAll resp.Body with
    | (_, some err) => (("", some (fmt.Errorf "erreur lecture body: " err)), wire')
    | (body, none) => ((body, none), wire')

end fetcher

namespace api

/-- A goroutine of the fan-out: the arguments `(i, url)` bound to it and what its call
`fetcher.Fetch(url)` returns once it returns. -/
structure Goroutine where
  i : Nat
  url : String
  out : String × Option GoError

/-- The state of the fan-out over the observable network. -/
structure FanOutT where
  goroutines : List Goroutine
  finished : List Nat
  results : List String
  wg : Int
  wire : List String

/-- The loop `for i, url := range urls { go func(i, url) ... }`, from index `i` on:
each goroutine started calls `fetcher.Fetch(url)`. -/
def spawn (net : Transport) : Nat → List String → List String → List Goroutine × List String
  | _, [], wire => ([], wire)
  | i, url :: rest, wire =>
    match fetcher.FetchT (net i) url wire with
    | (out, wire') =>
      match spawn net (i + 1) rest wire' with
      | (gs, wire'') => (⟨i, url, out⟩ :: gs, wire'')

/-- Steps 2 and 3 over the observable network. -/
def launchT (net : Transport) (urls : List String) : FanOutT :=
  match spawn net 0 urls [] with
  | (gs, wire) => ⟨gs, [], List.replicate urls.length "", (urls.length : Int), wire⟩

/-- The `fetcher.Fetch` call of goroutine `g` returns: the goroutine assigns `results[i]`
and calls `wg.Done()`.  As in `complete`, a goroutine returns once. -/
def completeT (st : FanOutT) (g : Nat) : FanOutT :=
  if g ∈ st.finished then st
  else
    match st.goroutines[g]? with
    | none => st
    | some gr =>
      ⟨st.goroutines, st.finished ++ [g], st.results.set gr.i (entry gr.out), st.wg - 1,
        st.wire⟩

/-- The goroutines return in the order `sched`. -/
def runT (st : FanOutT) (sched : List Nat) : FanOutT :=
  sched.foldl completeT st

/-- One execution of the handler over the observable network: the GET requests sent and
what was written, `none` when the handler never gets past `wg.Wait()`. -/
structure RunT where
  wire : List String
  response : Option http.ResponseWriter
  deriving DecidableEq

/-- The function `Handler` over the observable network. -/
def HandlerT (Decode : json.Decoder) (net : Transport) (sched : List Nat)
    (r : http.Request) : RunT :=
  match Decode r.Body with
  | (_, some _) => ⟨[], some (http.Error "JSON invalide" http.StatusBadRequest)⟩
  | (urls, none) =>
    let st := runT (launchT net urls) sched
    ⟨st.wire,
      if st.wg = 0 then
        some ⟨http.StatusOK, "application/json", http.Payload.jsonArray st.results⟩
      else none⟩

/-- The invariant that ties the fan-out over the observable network to `FanOut`. -/
structure Sim (net : Transport) (urls : List String) (stT : FanOutT) (st : FanOut) : Prop where
  goroutinesT_eq : stT.goroutines
    = urls.enum.map fun p => ⟨p.1, p.2, fetcher.Fetch (net p.1) p.2⟩
  goroutines_eq : st.goroutines = urls.enum
  finished_eq : stT.finished = st.finished
  results_eq : stT.results = st.results
  wg_eq : stT.wg = st.wg

end api

/-! ## Auxiliary definitions for the proofs -/

namespace api

/-- The slice `results` once exactly the goroutines in `fin` have returned: their slots
hold their entries, the other slots still hold the zero value. -/
def slots (net : Transport) (urls : List String) (fin : List Nat) : List String :=
  urls.enum.map fun p => if p.1 ∈ fin then entry (fetcher.Fetch (net p.1) p.2) else ""

/-- The invariant of the fan-out over the URL list `urls`. -/
structure Inv (net : Transport) (urls : List String) (st : FanOut) : Prop where
  goroutines_eq : st.goroutines = urls.enum
  nodup : st.finished.Nodup
  bound : ∀ g ∈ st.finished, g < urls.length
  results_eq : st.results = slots net urls st.finished
  wg_eq : st.wg = (urls.length : Int) - (st.finished.length : Int)
  calls_eq : fetchCalls st.events = st.finished.map fun g => (g, urls.getD g "")
  stores_eq : stores st.events = st.finished.map fun g => (g, g)

end api

/-! ## Lemmas on the fan-out -/

namespace api

theorem slots_nil (net : Transport) (urls : List String) :
    slots net urls [] = List.replicate urls.length "" := by
  apply List.ext_getElem?
  intro n
  simp only [slots, List.getElem?_map, List.getElem?_enum, List.getElem?_replicate]
  by_cases h : n < urls.length
  · simp [h, List.getElem?_eq_getElem h]
  · simp [h, List.getElem?_eq_none (Nat.le_of_not_lt h)]

theorem slots_snoc (net : Transport) (urls : List String) (fin : List Nat) (g : Nat)
    (url : String) (hg : urls[g]? = some url) :
    (slots net urls fin).set g (entry (fetcher.Fetch (net g) url))
      = slots net urls (fin ++ [g]) := by
  apply List.ext_getElem?
  intro n
  simp only [slots, List.getElem?_set, List.getElem?_map, List.getElem?_enum, List.length_map,
    List.enum_length, List.mem_append, List.mem_singleton]
  by_cases h : g = n
  · subst h
    have hlt : g < urls.length := by
      by_contra hc
      rw [List.getElem?_eq_none (Nat.le_of_not_lt hc)] at hg
      cases hg
    simp [hg, hlt]
  · have h' : ¬ n = g := fun e => h e.symm
    cases urls[n]? with
    | none => simp [h]
    | some a => simp [h, h']

theorem inv_launch (net : Transport) (urls : List String) : Inv net urls (launch urls) where
  goroutines_eq := rfl
  nodup := List.nodup_nil
  bound := by intro g hg; cases hg
  results_eq := (slots_nil net urls).symm
  wg_eq := by simp [launch]
  calls_eq := rfl
  stores_eq := rfl

theorem fetchCalls_append (a b : List Event) :
    fetchCalls (a ++ b) = fetchCalls a ++ fetchCalls b := by
  simp [fetchCalls]

theorem stores_append (a b : List Event) : stores (a ++ b) = stores a ++ stores b := by
  simp [stores]

theorem inv_complete (net : Transport) (urls : List String) (st : FanOut) (g : Nat)
    (h : Inv net urls st) : Inv net urls (complete net st g) := by
  unfold complete
  by_cases hfin : g ∈ st.finished
  · simpa [hfin] using h
  · simp only [hfin, if_false]
    cases hgo : st.goroutines[g]? with
    | none => simpa using h
    | some p =>
      obtain ⟨i, url⟩ := p
      have henum : urls.enum[g]? = some (i, url) := by rw [← h.goroutines_eq]; exact hgo
      rw [List.getElem?_enum] at henum
      cases hu : urls[g]? with
      | none => rw [hu] at henum; cases henum
      | some a =>
        rw [hu] at henum
        simp only [Option.map_some', Option.some.injEq, Prod.mk.injEq] at henum
        obtain ⟨hi, ha⟩ := henum
        subst hi ha
        have hlt : g < urls.length := by
          by_contra hc
          rw [List.getElem?_eq_none (Nat.le_of_not_lt hc)] at hu
          cases hu
        refine ⟨h.goroutines_eq, ?_, ?_, ?_, ?_, ?_, ?_⟩
        · exact List.Nodup.append h.nodup (List.nodup_singleton g) (by simpa using hfin)
        · intro x hx
          rcases List.mem_append.1 hx with hx | hx
          · exact h.bound x hx
          · rw [List.mem_singleton.1 hx]; exact hlt
        · show st.results.set g _ = _
          rw [h.results_eq]
          exact slots_snoc net urls st.finished g a hu
        · show st.wg - 1 = _
          rw [h.wg_eq]
          simp only [List.length_append, List.length_singleton]
          push_cast
          ring
        · show fetchCalls (st.events ++ _) = _
          rw [fetchCalls_append, h.calls_eq]
          simp [fetchCalls, List.getD, hu]
        · show stores (st.events ++ _) = _
          rw [stores_append, h.stores_eq]
          simp [stores]

theorem inv_run (net : Transport) (urls : List String) (sched : List Nat) :
    ∀ st : FanOut, Inv net urls st → Inv net urls (run net st sched) := by
  induction sched with
  | nil => intro st h; exact h
  | cons g rest ih => intro st h; exact ih _ (inv_complete net urls st g h)

theorem mem_finished_complete (net : Transport) (urls : List String) (st : FanOut) (g x : Nat)
    (h : Inv net urls st) :
    x ∈ (complete net st g).finished ↔ x ∈ st.finished ∨ (x = g ∧ g < urls.length) := by
  unfold complete
  by_cases hfin : g ∈ st.finished
  · simp only [hfin, if_true]
    constructor
    · exact Or.inl
    · rintro (hx | ⟨hx, _⟩)
      · exact hx
      · rw [hx]; exact hfin
  · simp only [hfin, if_false]
    have hen : st.goroutines[g]? = Option.map (fun a => (g, a)) urls[g]? := by
      rw [h.goroutines_eq, List.getElem?_enum]
    by_cases hlt : g < urls.length
    · rw [hen, List.getElem?_eq_getElem hlt]
      simp [hlt]
    · rw [hen, List.getElem?_eq_none (Nat.le_of_not_lt hlt)]
      simp [hlt]

theorem mem_finished_run (net : Transport) (urls : List String) (sched : List Nat) :
    ∀ st : FanOut, Inv net urls st → ∀ x,
      (x ∈ (run net st sched).finished ↔ x ∈ st.finished ∨ (x ∈ sched ∧ x < urls.length)) := by
  induction sched with
  | nil => intro st _ x; simp [run]
  | cons g rest ih =>
    intro st h x
    have h1 := ih (complete net st g) (inv_complete net urls st g h) x
    have h2 := mem_finished_complete net urls st g x h
    simp only [run, List.foldl_cons] at h1 ⊢
    rw [show List.foldl (complete net) (complete net st g) rest
      = run net (complete net st g) rest from rfl] at *
    rw [h1, h2, List.mem_cons]
    constructor
    · rintro ((hx | ⟨hx, hl⟩) | ⟨hx, hl⟩)
      · exact Or.inl hx
      · exact Or.inr ⟨Or.inl hx, hx ▸ hl⟩
      · exact Or.inr ⟨Or.inr hx, hl⟩
    · rintro (hx | ⟨hx | hx, hl⟩)
      · exact Or.inl (Or.inl hx)
      · exact Or.inl (Or.inr ⟨hx, hx ▸ hl⟩)
      · exact Or.inr ⟨hx, hl⟩

end api

namespace api

theorem finished_perm (net : Transport) (urls : List String) (sched : List Nat)
    (hc : ∀ g, g < urls.length → g ∈ sched) :
    (run net (launch urls) sched).finished.Perm (List.range urls.length) := by
  have hinv := inv_run net urls sched _ (inv_launch net urls)
  have hmem := mem_finished_run net urls sched _ (inv_launch net urls)
  rw [List.perm_ext_iff_of_nodup hinv.nodup (List.nodup_range _)]
  intro a
  rw [hmem a, List.mem_range]
  constructor
  · rintro (h | ⟨_, h⟩)
    · cases h
    · exact h
  · intro h
    exact Or.inr ⟨hc a h, h⟩

theorem wg_zero (net : Transport) (urls : List String) (sched : List Nat)
    (hc : ∀ g, g < urls.length → g ∈ sched) :
    (run net (launch urls) sched).wg = 0 := by
  have hinv := inv_run net urls sched _ (inv_launch net urls)
  have hlen := (finished_perm net urls sched hc).length_eq
  rw [List.length_range] at hlen
  rw [hinv.wg_eq, hlen]
  simp

theorem results_complete (net : Transport) (urls : List String) (sched : List Nat)
    (hc : ∀ g, g < urls.length → g ∈ sched) :
    (run net (launch urls) sched).results
      = urls.enum.map fun p => entry (fetcher.Fetch (net p.1) p.2) := by
  have hinv := inv_run net urls sched _ (inv_launch net urls)
  have hperm := finished_perm net urls sched hc
  rw [hinv.results_eq, slots]
  apply List.map_congr_left
  intro p hp
  obtain ⟨i, url⟩ := p
  have hi : i < urls.length := (List.mem_enum hp).1
  have : i ∈ (run net (launch urls) sched).finished :=
    hperm.mem_iff.2 (List.mem_range.2 hi)
  simp [this]

theorem stores_complete (net : Transport) (urls : List String) (sched : List Nat)
    (hc : ∀ g, g < urls.length → g ∈ sched) (i : Nat) (hi : i < urls.length) :
    (stores (run net (launch urls) sched).events).filter (fun p => p.2 = i) = [(i, i)] := by
  have hinv := inv_run net urls sched _ (inv_launch net urls)
  have hperm := finished_perm net urls sched hc
  have hmem : i ∈ (run net (launch urls) sched).finished :=
    hperm.mem_iff.2 (List.mem_range.2 hi)
  rw [hinv.stores_eq, List.filter_map]
  have hf : ((fun p : Nat × Nat => decide (p.2 = i)) ∘ fun g => (g, g))
      = fun g => decide (g = i) := rfl
  rw [hf, List.filter_eq, List.count_eq_one_of_mem hinv.nodup hmem]
  rfl

theorem Handler_accept (Decode : json.Decoder) (net : Transport) (sched : List Nat)
    (r : http.Request) (urls : List String) (hd : Decode r.Body = (urls, none)) :
    Handler Decode net sched r
      = ⟨Event.decode :: (run net (launch urls) sched).events,
          if (run net (launch urls) sched).wg = 0 then
            some ⟨http.StatusOK, "application/json",
              http.Payload.jsonArray (run net (launch urls) sched).results⟩
          else none⟩ := by
  unfold Handler
  rw [hd]

theorem Handler_reject (Decode : json.Decoder) (net : Transport) (sched : List Nat)
    (r : http.Request) (urls : List String) (e : json.DecodeError)
    (hd : Decode r.Body = (urls, some e)) :
    Handler Decode net sched r
      = ⟨[Event.decode], some (http.Error "JSON invalide" http.StatusBadRequest)⟩ := by
  unfold Handler
  rw [hd]

end api

/-! ## The fetch primitive -/

namespace io

theorem readAllFrom_eq (r : Reader) :
    ∀ b : String, readAllFrom b r = (b ++ r.content, r.ending) := by
  induction r with
  | EOF => intro b; simp [readAllFrom, Reader.content, Reader.ending]
  | fail err => intro b; simp [readAllFrom, Reader.content, Reader.ending]
  | data p next ih =>
    intro b
    simp [readAllFrom, Reader.content, Reader.ending, ih, String.append_assoc]

theorem ReadAll_eq (r : Reader) : ReadAll r = (r.content, r.ending) := by
  simp [ReadAll, readAllFrom_eq]

end io

namespace fetcher

/-- C5: when the GET returns a response and its body is read to the end without error,
`Fetch` succeeds with exactly the complete body as text; the status code of the
response plays no part, so any other response with the same body gives the same
result. -/
theorem Fetch_success_any_status (httpGet : http.Get) (url : String) (resp : http.Response)
    (hget : httpGet url = http.GetResult.ok resp) (hread : resp.Body.ending = none) :
    Fetch httpGet url = (resp.Body.content, none)
      ∧ ∀ (code : Nat) (httpGet' : http.Get),
          httpGet' url = http.GetResult.ok ⟨code, resp.Body⟩ →
            Fetch httpGet' url = Fetch httpGet url := by
  have h1 : ∀ (g : http.Get) (c : Nat), g url = http.GetResult.ok ⟨c, resp.Body⟩ →
      Fetch g url = (resp.Body.content, none) := by
    intro g c hg
    simp only [Fetch, hg, io.ReadAll_eq, hread]
  refine ⟨?_, ?_⟩
  · exact h1 httpGet resp.StatusCode hget
  · intro code g hg
    rw [h1 g code hg, h1 httpGet resp.StatusCode hget]

/-- Witness for C5: a 404 response whose body arrives in two chunks. -/
theorem Fetch_success_any_status_witness :
    Fetch (fun _ => http.GetResult.ok ⟨404, io.Reader.data "not " (io.Reader.data "found" io.Reader.EOF)⟩)
        "http://x/y" = ("not found", none)
      ∧ ∀ (code : Nat) (httpGet' : http.Get),
          httpGet' "http://x/y"
              = http.GetResult.ok ⟨code, io.Reader.data "not " (io.Reader.data "found" io.Reader.EOF)⟩ →
            Fetch httpGet' "http://x/y"
              = Fetch (fun _ => http.GetResult.ok
                  ⟨404, io.Reader.data "not " (io.Reader.data "found" io.Reader.EOF)⟩) "http://x/y" :=
  Fetch_success_any_status
    (fun _ => http.GetResult.ok ⟨404, io.Reader.data "not " (io.Reader.data "found" io.Reader.EOF)⟩)
    "http://x/y" ⟨404, io.Reader.data "not " (io.Reader.data "found" io.Reader.EOF)⟩ rfl rfl

/-- C6: `Fetch` fails exactly when the GET returns an error or reading the body returns
an error.  In both cases the returned text is empty, the returned error wraps the
cause, and its message is the cause's message after `erreur requête GET: ` or
`erreur lecture body: ` respectively. -/
theorem Fetch_failure_iff (httpGet : http.Get) (url : String) :
    ((Fetch httpGet url).2 ≠ none ↔
        (∃ err, httpGet url = http.GetResult.error err)
          ∨ ∃ resp err, httpGet url = http.GetResult.ok resp ∧ (io.ReadAll resp.Body).2 = some err)
      ∧ (∀ err, httpGet url = http.GetResult.error err →
          ∃ e, Fetch httpGet url = ("", some e)
            ∧ e.Error = "erreur requête GET: " ++ err.Error ∧ e.Unwrap = some err)
      ∧ (∀ resp err, httpGet url = http.GetResult.ok resp →
          (io.ReadAll resp.Body).2 = some err →
            ∃ e, Fetch httpGet url = ("", some e)
              ∧ e.Error = "erreur lecture body: " ++ err.Error ∧ e.Unwrap = some err) := by
  refine ⟨?_, ?_, ?_⟩
  · cases hget : httpGet url with
    | error err => simp [Fetch, hget]
    | ok resp =>
      cases hread : io.ReadAll resp.Body with
      | mk body oerr =>
        cases oerr with
        | none => simp [Fetch, hget, hread]
        | some err => simp [Fetch, hget, hread]
  · intro err hget
    exact ⟨fmt.Errorf "erreur requête GET: " err, by simp [Fetch, hget], rfl, rfl⟩
  · intro resp err hget hread
    cases hr : io.ReadAll resp.Body with
    | mk body oerr =>
      rw [hr] at hread
      simp only at hread
      subst hread
      exact ⟨fmt.Errorf "erreur lecture body: " err, by simp [Fetch, hget, hr], rfl, rfl⟩

/-- Witness for C6: a body stream that breaks after a first chunk; the chunk is not
returned. -/
theorem Fetch_failure_iff_witness :
    ∃ e, Fetch (fun _ => http.GetResult.ok
          ⟨200, io.Reader.data "half" (io.Reader.fail (GoError.errorString "reset"))⟩) "u"
        = ("", some e)
      ∧ e.Error = "erreur lecture body: " ++ (GoError.errorString "reset").Error
      ∧ e.Unwrap = some (GoError.errorString "reset") :=
  (Fetch_failure_iff (fun _ => http.GetResult.ok
      ⟨200, io.Reader.data "half" (io.Reader.fail (GoError.errorString "reset"))⟩) "u").2.2
    ⟨200, io.Reader.data "half" (io.Reader.fail (GoError.errorString "reset"))⟩
    (GoError.errorString "reset") rfl (by decide)

end fetcher

/-! ## The handler -/

namespace api

theorem Handler_complete (Decode : json.Decoder) (net : Transport) (sched : List Nat)
    (r : http.Request) (urls : List String) (hd : Decode r.Body = (urls, none))
    (hc : ∀ g, g < urls.length → g ∈ sched) :
    (Handler Decode net sched r).response
      = some ⟨http.StatusOK, "application/json",
          http.Payload.jsonArray (urls.enum.map fun p => entry (fetcher.Fetch (net p.1) p.2))⟩ := by
  rw [Handler_accept Decode net sched r urls hd]
  simp only [wg_zero net urls sched hc, if_true, results_complete net urls sched hc]

theorem getElem?_entries (net : Transport) (urls : List String) (i : Nat)
    (hi : i < urls.length) :
    (urls.enum.map fun p => entry (fetcher.Fetch (net p.1) p.2))[i]?
      = some (entry (fetcher.Fetch (net i) urls[i])) := by
  simp [List.getElem?_enum, List.getElem?_eq_getElem hi]

theorem entries_eq_rule (net : Transport) (urls : List String) :
    (urls.enum.map fun p => entry (fetcher.Fetch (net p.1) p.2))
      = urls.enum.map fun p =>
          match fetcher.Fetch (net p.1) p.2 with
          | (_, some err) => "Erreur: " ++ err.Error
          | (data, none) => data := rfl

/-- C1: once every goroutine of the fan-out has returned, the reply carries the result
array, which is the pointwise map over `urls`, in input order, of the rule: the body
text when `Fetch` of that URL succeeded, `Erreur: ` followed by the error message when
it failed.  Slot `i` depends on `fetcher.Fetch(urls[i])` alone. -/
theorem Handler_results_pointwise (Decode : json.Decoder) (net : Transport)
    (sched : List Nat) (r : http.Request) (urls : List String)
    (hd : Decode r.Body = (urls, none)) (hc : ∀ g, g < urls.length → g ∈ sched) :
    ∃ results : List String,
      (Handler Decode net sched r).response
          = some ⟨http.StatusOK, "application/json", http.Payload.jsonArray results⟩
        ∧ results = (urls.enum.map fun p =>
            match fetcher.Fetch (net p.1) p.2 with
            | (_, some err) => "Erreur: " ++ err.Error
            | (data, none) => data)
        ∧ ∀ (i : Nat) (hi : i < urls.length),
            (∀ data, fetcher.Fetch (net i) urls[i] = (data, none) → results[i]? = some data)
              ∧ ∀ data err, fetcher.Fetch (net i) urls[i] = (data, some err) →
                  results[i]? = some ("Erreur: " ++ err.Error) := by
  refine ⟨_, Handler_complete Decode net sched r urls hd hc, entries_eq_rule net urls, ?_⟩
  intro i hi
  rw [getElem?_entries net urls i hi]
  constructor
  · intro data h
    rw [h]; rfl
  · intro data err h
    rw [h]; rfl

/-- Witness for C1: three URLs, the middle one failing, completing in the order 1, 0, 2. -/
theorem Handler_results_pointwise_witness :
    ∃ results : List String,
      (Handler json.DecodeStrings sampleNet [1, 0, 2]
          ⟨"POST", "[\"a\", \"bad\", \"c\"]"⟩).response
          = some ⟨http.StatusOK, "application/json", http.Payload.jsonArray results⟩
        ∧ results = (["a", "bad", "c"].enum.map fun p =>
            match fetcher.Fetch (sampleNet p.1) p.2 with
            | (_, some err) => "Erreur: " ++ err.Error
            | (data, none) => data)
        ∧ ∀ (i : Nat) (hi : i < ["a", "bad", "c"].length),
            (∀ data, fetcher.Fetch (sampleNet i) ["a", "bad", "c"][i] = (data, none) →
                results[i]? = some data)
              ∧ ∀ data err, fetcher.Fetch (sampleNet i) ["a", "bad", "c"][i] = (data, some err) →
                  results[i]? = some ("Erreur: " ++ err.Error) :=
  Handler_results_pointwise json.DecodeStrings sampleNet [1, 0, 2]
    ⟨"POST", "[\"a\", \"bad\", \"c\"]"⟩ ["a", "bad", "c"] (by decide) (by decide)

/-- C2: whatever the network does (so whichever fetches fail), once every goroutine has
returned the reply carries a result array with exactly as many entries as there are
URLs. -/
theorem Handler_results_length (Decode : json.Decoder) (net : Transport) (sched : List Nat)
    (r : http.Request) (urls : List String)
    (hd : Decode r.Body = (urls, none)) (hc : ∀ g, g < urls.length → g ∈ sched) :
    ∃ results : List String,
      (Handler Decode net sched r).response
          = some ⟨http.StatusOK, "application/json", http.Payload.jsonArray results⟩
        ∧ results.length = urls.length := by
  refine ⟨_, Handler_complete Decode net sched r urls hd hc, ?_⟩
  simp

/-- Witness for C2: a batch of two URLs on a network where every GET fails. -/
theorem Handler_results_length_witness :
    ∃ results : List String,
      (Handler json.DecodeStrings downNet [0, 1] ⟨"POST", "[\"a\", \"b\"]"⟩).response
          = some ⟨http.StatusOK, "application/json", http.Payload.jsonArray results⟩
        ∧ results.length = ["a", "b"].length :=
  Handler_results_length json.DecodeStrings downNet [0, 1] ⟨"POST", "[\"a\", \"b\"]"⟩
    ["a", "b"] (by decide) (by decide)

/-- C3: failure isolation.  Take two networks (and two completion orders) that give the
same outcome to the fetch at position `i` and differ in any way at the other positions.
Both runs reply with a full result array, and the two arrays agree at slot `i`. -/
theorem Handler_isolation (Decode : json.Decoder) (net net' : Transport)
    (sched sched' : List Nat) (r : http.Request) (urls : List String)
    (hd : Decode r.Body = (urls, none))
    (hc : ∀ g, g < urls.length → g ∈ sched) (hc' : ∀ g, g < urls.length → g ∈ sched')
    (i : Nat) (hi : i < urls.length)
    (hsame : fetcher.Fetch (net' i) urls[i] = fetcher.Fetch (net i) urls[i]) :
    ∃ results results' : List String,
      (Handler Decode net sched r).response
          = some ⟨http.StatusOK, "application/json", http.Payload.jsonArray results⟩
        ∧ (Handler Decode net' sched' r).response
          = some ⟨http.StatusOK, "application/json", http.Payload.jsonArray results'⟩
        ∧ results.length = urls.length ∧ results'.length = urls.length
        ∧ results'[i]? = results[i]? := by
  refine ⟨_, _, Handler_complete Decode net sched r urls hd hc,
    Handler_complete Decode net' sched' r urls hd hc', ?_, ?_, ?_⟩
  · simp
  · simp
  · rw [getElem?_entries net urls i hi, getElem?_entries net' urls i hi, hsame]

/-- Witness for C3: slot 0 of the batch `a`, `b` when the second fetch is turned from a
success into a failure. -/
theorem Handler_isolation_witness :
    ∃ results results' : List String,
      (Handler json.DecodeStrings sampleNet [0, 1] ⟨"POST", "[\"a\", \"b\"]"⟩).response
          = some ⟨http.StatusOK, "application/json", http.Payload.jsonArray results⟩
        ∧ (Handler json.DecodeStrings
              (fun g => if g = 1 then downNet g else sampleNet g) [1, 0]
              ⟨"POST", "[\"a\", \"b\"]"⟩).response
          = some ⟨http.StatusOK, "application/json", http.Payload.jsonArray results'⟩
        ∧ results.length = ["a", "b"].length ∧ results'.length = ["a", "b"].length
        ∧ results'[0]? = results[0]? :=
  Handler_isolation json.DecodeStrings sampleNet
    (fun g => if g = 1 then downNet g else sampleNet g) [0, 1] [1, 0]
    ⟨"POST", "[\"a\", \"b\"]"⟩ ["a", "b"] (by decide) (by decide) (by decide) 0 (by decide)
    (by decide)

end api

namespace api

/-- The barrier: as long as some launched goroutine has not returned, the handler
stays in `wg.Wait()` and sends nothing. -/
theorem Handler_blocked (Decode : json.Decoder) (net : Transport) (sched : List Nat)
    (r : http.Request) (urls : List String) (hd : Decode r.Body = (urls, none))
    (g : Nat) (hg : g < urls.length) (hmiss : g ∉ sched) :
    (Handler Decode net sched r).response = none := by
  have hinv := inv_run net urls sched _ (inv_launch net urls)
  have hmem := mem_finished_run net urls sched _ (inv_launch net urls)
  have hnot : g ∉ (run net (launch urls) sched).finished := by
    rw [hmem g]
    rintro (h | ⟨h, _⟩)
    · cases h
    · exact hmiss h
  have hnd : (g :: (run net (launch urls) sched).finished).Nodup :=
    List.nodup_cons.2 ⟨hnot, hinv.nodup⟩
  have hsub : g :: (run net (launch urls) sched).finished ⊆ List.range urls.length := by
    intro x hx
    rcases List.mem_cons.1 hx with hx | hx
    · rw [hx]; exact List.mem_range.2 hg
    · exact List.mem_range.2 (hinv.bound x hx)
  have hlen := (List.subperm_of_subset hnd hsub).length_le
  rw [List.length_cons, List.length_range] at hlen
  have hwg : (run net (launch urls) sched).wg ≠ 0 := by
    rw [hinv.wg_eq]
    omega
  rw [Handler_accept Decode net sched r urls hd]
  simp [hwg]

end api

namespace api

/-- Counterexample for C4 as stated: the payloads `null` and an array followed by other
text are not JSON arrays of strings, yet the handler, with the standard decoder,
answers 200 with a result array, and for the second payload a fetch is made. -/
theorem Handler_rejects_all_non_arrays_refuted :
    json.isStringArray "null" = false
      ∧ Handler json.DecodeStrings sampleNet [] ⟨"POST", "null"⟩
          = ⟨[Event.decode],
              some ⟨200, "application/json", http.Payload.jsonArray []⟩⟩
      ∧ json.isStringArray "[\"a\"] trailing" = false
      ∧ Handler json.DecodeStrings sampleNet [0] ⟨"POST", "[\"a\"] trailing"⟩
          = ⟨[Event.decode, Event.fetch 0 "a", Event.store 0 0],
              some ⟨200, "application/json", http.Payload.jsonArray ["a!"]⟩⟩ := by
  decide

/-- C4, amended: for every payload on which the decoder returns an error, the handler
replies 400 with the message `JSON invalide`, calls `fetcher.Fetch` zero times and
writes no result array; the decoding is the only action of the request. -/
theorem Handler_decode_error (Decode : json.Decoder) (net : Transport) (sched : List Nat)
    (r : http.Request) (urls : List String) (e : json.DecodeError)
    (hd : Decode r.Body = (urls, some e)) :
    Handler Decode net sched r
        = ⟨[Event.decode],
            some ⟨400, "text/plain; charset=utf-8", http.Payload.text "JSON invalide\n"⟩⟩
      ∧ fetchCalls (Handler Decode net sched r).events = []
      ∧ ∀ w, (Handler Decode net sched r).response = some w → resultsOf w = none := by
  have h := Handler_reject Decode net sched r urls e hd
  refine ⟨h, ?_, ?_⟩
  · rw [h]; rfl
  · intro w hw
    rw [h] at hw
    simp only [Option.some.injEq] at hw
    rw [← hw]; rfl

/-- Witness for C4, amended: a JSON object as payload, with the standard decoder. -/
theorem Handler_decode_error_witness :
    Handler json.DecodeStrings sampleNet [0, 1] ⟨"POST", "\x7b\"urls\": [\"a\"]\x7d"⟩
        = ⟨[Event.decode],
            some ⟨400, "text/plain; charset=utf-8", http.Payload.text "JSON invalide\n"⟩⟩
      ∧ fetchCalls (Handler json.DecodeStrings sampleNet [0, 1]
          ⟨"POST", "\x7b\"urls\": [\"a\"]\x7d"⟩).events = []
      ∧ ∀ w, (Handler json.DecodeStrings sampleNet [0, 1]
          ⟨"POST", "\x7b\"urls\": [\"a\"]\x7d"⟩).response = some w → resultsOf w = none :=
  Handler_decode_error json.DecodeStrings sampleNet [0, 1]
    ⟨"POST", "\x7b\"urls\": [\"a\"]\x7d"⟩ [] json.DecodeError.typeMismatch (by decide)

theorem entry_failed (data : String) (err : GoError) :
    entry (data, some err) = "Erreur: " ++ err.Error := rfl

theorem entry_ok (data : String) : entry (data, none) = data := rfl

/-- Counterexample for C7 as stated: in one batch the GET of `http://example.com/` succeeds
with a body that reads like the entry of a refused connection, and the GET of
`http://127.0.0.1:9/` fails with that refused connection.  The first fetch succeeded,
the second failed, and the two entries of the reply are the same text. -/
theorem marker_separates_outcomes_refuted :
    (fetcher.Fetch (mimicNet 0) "http://example.com/").2 = none
      ∧ (fetcher.Fetch (mimicNet 1) "http://127.0.0.1:9/").2 ≠ none
      ∧ (Handler json.DecodeStrings mimicNet [0, 1]
          ⟨"POST", "[\"http://example.com/\", \"http://127.0.0.1:9/\"]"⟩).response
          = some ⟨200, "application/json",
              http.Payload.jsonArray
                ["Erreur: erreur requête GET: Get \"http://127.0.0.1:9/\": dial tcp 127.0.0.1:9: connect: connection refused",
                 "Erreur: erreur requête GET: Get \"http://127.0.0.1:9/\": dial tcp 127.0.0.1:9: connect: connection refused"]⟩ := by
  decide

theorem entry_failure_shape (get : http.Get) (u : String)
    (hfail : (fetcher.Fetch get u).2 ≠ none) :
    (∃ t, entry (fetcher.Fetch get u) = "Erreur: erreur requête GET: " ++ t)
      ∨ ∃ t, entry (fetcher.Fetch get u) = "Erreur: erreur lecture body: " ++ t := by
  cases hget : get u with
  | error err =>
    refine Or.inl ⟨err.Error, ?_⟩
    have h : fetcher.Fetch get u = ("", some (fmt.Errorf "erreur requête GET: " err)) := by
      simp [fetcher.Fetch, hget]
    rw [h, entry_failed]
    show "Erreur: " ++ ("erreur requête GET: " ++ err.Error) = _
    rw [← String.append_assoc]
    rfl
  | ok resp =>
    cases hread : io.ReadAll resp.Body with
    | mk body oerr =>
      cases oerr with
      | none =>
        have h : fetcher.Fetch get u = (body, none) := by
          simp [fetcher.Fetch, hget, hread]
        rw [h] at hfail
        exact absurd rfl hfail
      | some err =>
        refine Or.inr ⟨err.Error, ?_⟩
        have h : fetcher.Fetch get u = ("", some (fmt.Errorf "erreur lecture body: " err)) := by
          simp [fetcher.Fetch, hget, hread]
        rw [h, entry_failed]
        show "Erreur: " ++ ("erreur lecture body: " ++ err.Error) = _
        rw [← String.append_assoc]
        rfl

/-- C7, amended: in the result array every entry written for a failed fetch begins
with `Erreur: `; the entry written for a successful fetch is the exact body text, and
it differs from every entry a failed fetch could produce provided the body begins
neither with `Erreur: erreur requête GET: ` nor with `Erreur: erreur lecture body: `.
The array has one entry per URL, and when every fetch fails all its entries begin with
`Erreur: `. -/
theorem Handler_failure_marker (Decode : json.Decoder) (net : Transport) (sched : List Nat)
    (r : http.Request) (urls : List String)
    (hd : Decode r.Body = (urls, none)) (hc : ∀ g, g < urls.length → g ∈ sched) :
    ∃ results : List String,
      (Handler Decode net sched r).response
          = some ⟨http.StatusOK, "application/json", http.Payload.jsonArray results⟩
        ∧ results.length = urls.length
        ∧ (∀ (i : Nat) (hi : i < urls.length),
            (∀ data err, fetcher.Fetch (net i) urls[i] = (data, some err) →
                ∃ t, results[i]? = some ("Erreur: " ++ t))
              ∧ ∀ data, fetcher.Fetch (net i) urls[i] = (data, none) →
                  results[i]? = some data
                    ∧ ((¬ ∃ t, data = "Erreur: erreur requête GET: " ++ t) →
                        (¬ ∃ t, data = "Erreur: erreur lecture body: " ++ t) →
                        ∀ (get : http.Get) (u : String), (fetcher.Fetch get u).2 ≠ none →
                          entry (fetcher.Fetch get u) ≠ data))
        ∧ ((∀ (i : Nat) (hi : i < urls.length), (fetcher.Fetch (net i) urls[i]).2 ≠ none) →
            ∀ x ∈ results, ∃ t, x = "Erreur: " ++ t) := by
  refine ⟨_, Handler_complete Decode net sched r urls hd hc, by simp, ?_, ?_⟩
  · intro i hi
    rw [getElem?_entries net urls i hi]
    constructor
    · intro data err h
      exact ⟨err.Error, by rw [h, entry_failed]⟩
    · intro data h
      refine ⟨by rw [h, entry_ok], ?_⟩
      intro hget hread get u hfail heq
      rcases entry_failure_shape get u hfail with ⟨t, ht⟩ | ⟨t, ht⟩
      · exact hget ⟨t, by rw [← heq, ht]⟩
      · exact hread ⟨t, by rw [← heq, ht]⟩
  · intro hall x hx
    obtain ⟨p, hp, rfl⟩ := List.mem_map.1 hx
    obtain ⟨i, url⟩ := p
    obtain ⟨hi, hurl⟩ := List.mem_enum hp
    have hfail := hall i hi
    have hurl' : urls[i] = url := hurl.symm
    rw [hurl'] at hfail
    show ∃ t, entry (fetcher.Fetch (net i) url) = "Erreur: " ++ t
    cases hout : fetcher.Fetch (net i) url with
    | mk d oe =>
      cases oe with
      | none => rw [hout] at hfail; exact absurd rfl hfail
      | some err => exact ⟨err.Error, entry_failed d err⟩

/-- Witness for C7, amended: one succeeding and one failing URL, the failing one
returning first. -/
theorem Handler_failure_marker_witness :
    ∃ results : List String,
      (Handler json.DecodeStrings plainNet [1, 0]
          ⟨"POST", "[\"http://example.com/\", \"http://127.0.0.1:9/\"]"⟩).response
          = some ⟨http.StatusOK, "application/json", http.Payload.jsonArray results⟩
        ∧ results.length = ["http://example.com/", "http://127.0.0.1:9/"].length
        ∧ (∀ (i : Nat) (hi : i < ["http://example.com/", "http://127.0.0.1:9/"].length),
            (∀ data err,
                fetcher.Fetch (plainNet i) ["http://example.com/", "http://127.0.0.1:9/"][i]
                  = (data, some err) →
                ∃ t, results[i]? = some ("Erreur: " ++ t))
              ∧ ∀ data,
                  fetcher.Fetch (plainNet i) ["http://example.com/", "http://127.0.0.1:9/"][i]
                    = (data, none) →
                  results[i]? = some data
                    ∧ ((¬ ∃ t, data = "Erreur: erreur requête GET: " ++ t) →
                        (¬ ∃ t, data = "Erreur: erreur lecture body: " ++ t) →
                        ∀ (get : http.Get) (u : String), (fetcher.Fetch get u).2 ≠ none →
                          entry (fetcher.Fetch get u) ≠ data))
        ∧ ((∀ (i : Nat) (hi : i < ["http://example.com/", "http://127.0.0.1:9/"].length),
              (fetcher.Fetch (plainNet i)
                ["http://example.com/", "http://127.0.0.1:9/"][i]).2 ≠ none) →
            ∀ x ∈ results, ∃ t, x = "Erreur: " ++ t) :=
  Handler_failure_marker json.DecodeStrings plainNet [1, 0]
    ⟨"POST", "[\"http://example.com/\", \"http://127.0.0.1:9/\"]"⟩
    ["http://example.com/", "http://127.0.0.1:9/"] (by decide) (by decide)

end api

namespace api

theorem stores_Handler (Decode : json.Decoder) (net : Transport) (sched : List Nat)
    (r : http.Request) (urls : List String) (hd : Decode r.Body = (urls, none)) :
    stores (Handler Decode net sched r).events
      = stores (run net (launch urls) sched).events := by
  rw [Handler_accept Decode net sched r urls hd]
  rfl

theorem runT_wire (sched : List Nat) : ∀ st : FanOutT, (runT st sched).wire = st.wire := by
  induction sched with
  | nil => intro st; rfl
  | cons g rest ih =>
    intro st
    have h : (completeT st g).wire = st.wire := by
      unfold completeT
      by_cases hfin : g ∈ st.finished
      · simp [hfin]
      · simp only [hfin, if_false]
        cases st.goroutines[g]? <;> rfl
    show (runT (completeT st g) rest).wire = st.wire
    rw [ih, h]

theorem FetchT_eq (httpGet : http.Get) (url : String) (wire : List String) :
    fetcher.FetchT httpGet url wire = (fetcher.Fetch httpGet url, wire ++ [url]) := by
  unfold fetcher.FetchT fetcher.Fetch http.GetT
  cases httpGet url with
  | error err => rfl
  | ok resp =>
    cases hread : io.ReadAll resp.Body with
    | mk body oerr =>
      cases oerr with
      | none => simp [hread]
      | some err => simp [hread]

theorem spawn_eq (net : Transport) (urls : List String) :
    ∀ (i : Nat) (wire : List String),
      spawn net i urls wire
        = ((urls.enumFrom i).map fun p => ⟨p.1, p.2, fetcher.Fetch (net p.1) p.2⟩,
            wire ++ urls) := by
  induction urls with
  | nil => intro i wire; simp [spawn]
  | cons url rest ih =>
    intro i wire
    simp [spawn, FetchT_eq, ih, List.enumFrom_cons]

theorem launchT_eq (net : Transport) (urls : List String) :
    launchT net urls
      = ⟨urls.enum.map fun p => ⟨p.1, p.2, fetcher.Fetch (net p.1) p.2⟩, [],
          List.replicate urls.length "", (urls.length : Int), urls⟩ := by
  simp [launchT, spawn_eq, List.enum]

theorem sim_launch (net : Transport) (urls : List String) :
    Sim net urls (launchT net urls) (launch urls) := by
  rw [launchT_eq]
  exact ⟨rfl, rfl, rfl, rfl, rfl⟩

theorem sim_complete (net : Transport) (urls : List String) (stT : FanOutT) (st : FanOut)
    (g : Nat) (h : Sim net urls stT st) :
    Sim net urls (completeT stT g) (complete net st g) := by
  unfold completeT complete
  rw [h.finished_eq]
  by_cases hfin : g ∈ st.finished
  · simpa [hfin] using h
  · simp only [hfin, if_false]
    rw [h.goroutinesT_eq, h.goroutines_eq, List.getElem?_map, List.getElem?_enum]
    cases hu : urls[g]? with
    | none => simpa using h
    | some a =>
      simp only [Option.map_some']
      refine ⟨rfl, rfl, rfl, ?_, ?_⟩
      · show stT.results.set g _ = st.results.set g _
        rw [h.results_eq]
      · show stT.wg - 1 = st.wg - 1
        rw [h.wg_eq]

theorem sim_run (net : Transport) (urls : List String) (sched : List Nat) :
    ∀ (stT : FanOutT) (st : FanOut), Sim net urls stT st →
      Sim net urls (runT stT sched) (run net st sched) := by
  induction sched with
  | nil => intro stT st h; exact h
  | cons g rest ih => intro stT st h; exact ih _ _ (sim_complete net urls stT st g h)

/-- The handler over the observable network replies exactly as `Handler` does. -/
theorem HandlerT_response (Decode : json.Decoder) (net : Transport) (sched : List Nat)
    (r : http.Request) :
    (HandlerT Decode net sched r).response = (Handler Decode net sched r).response := by
  unfold HandlerT Handler
  cases hd : Decode r.Body with
  | mk urls oerr =>
    cases oerr with
    | some e => rfl
    | none =>
      have hs := sim_run net urls sched _ _ (sim_launch net urls)
      simp only [hs.wg_eq, hs.results_eq]

theorem HandlerT_wire (Decode : json.Decoder) (net : Transport) (sched : List Nat)
    (r : http.Request) (urls : List String) (hd : Decode r.Body = (urls, none)) :
    (HandlerT Decode net sched r).wire = urls := by
  unfold HandlerT
  rw [hd]
  show (runT (launchT net urls) sched).wire = urls
  rw [runT_wire, launchT_eq]

theorem runT_nil_urls (net : Transport) (sched : List Nat) :
    runT (launchT net []) sched = launchT net [] := by
  induction sched with
  | nil => rfl
  | cons g rest ih =>
    have h : completeT (launchT net []) g = launchT net [] := by
      simp [completeT, launchT, spawn]
    show runT (completeT (launchT net []) g) rest = launchT net []
    rw [h]; exact ih

/-- C8: for every decoded URL list, the GET requests that reach the network during the
request are, up to order, exactly the entries of the list: each launched goroutine
calls `fetcher.Fetch` on its URL and every call of `fetcher.Fetch` sends exactly one GET.
So there are `len(urls)` calls whatever the goroutines' fate, a URL occurring `k` times
is fetched `k` times, and for the empty list no request is sent and the reply is the
empty result array.  The reply is that of `Handler`. -/
theorem HandlerT_fetch_once_each (Decode : json.Decoder) (net : Transport)
    (sched : List Nat) (r : http.Request) (urls : List String)
    (hd : Decode r.Body = (urls, none)) :
    (HandlerT Decode net sched r).wire.Perm urls
      ∧ (HandlerT Decode net sched r).wire.length = urls.length
      ∧ (∀ u : String, (HandlerT Decode net sched r).wire.count u = urls.count u)
      ∧ (∀ (get : http.Get) (u : String) (wire : List String),
          (fetcher.FetchT get u wire).2 = wire ++ [u])
      ∧ (urls = [] →
          HandlerT Decode net sched r
            = ⟨[], some ⟨http.StatusOK, "application/json", http.Payload.jsonArray []⟩⟩)
      ∧ (HandlerT Decode net sched r).response = (Handler Decode net sched r).response := by
  have hw := HandlerT_wire Decode net sched r urls hd
  refine ⟨by rw [hw], by rw [hw], fun u => by rw [hw], ?_, ?_,
    HandlerT_response Decode net sched r⟩
  · intro get u wire
    rw [FetchT_eq]
  · intro hnil
    subst hnil
    unfold HandlerT
    rw [hd]
    show (⟨(runT (launchT net []) sched).wire, _⟩ : RunT) = _
    rw [runT_nil_urls]
    rfl

/-- Witness for C8: the same URL occurs twice in a batch of three and is requested
twice, in a run where only two of the three goroutines have returned; and the empty
batch, for which nothing is requested and the empty array is sent. -/
theorem HandlerT_fetch_once_each_witness :
    (HandlerT json.DecodeStrings plainNet [2, 0]
        ⟨"POST", "[\"http://example.com/a\", \"http://127.0.0.1:9/\", \"http://example.com/a\"]"⟩).wire
      = ["http://example.com/a", "http://127.0.0.1:9/", "http://example.com/a"]
      ∧ (HandlerT json.DecodeStrings plainNet [2, 0]
        ⟨"POST", "[\"http://example.com/a\", \"http://127.0.0.1:9/\", \"http://example.com/a\"]"⟩).wire.count
          "http://example.com/a" = 2
      ∧ HandlerT json.DecodeStrings plainNet [] ⟨"POST", "[]"⟩
        = ⟨[], some ⟨http.StatusOK, "application/json", http.Payload.jsonArray []⟩⟩ :=
  ⟨by decide,
    ((HandlerT_fetch_once_each json.DecodeStrings plainNet [2, 0]
      ⟨"POST", "[\"http://example.com/a\", \"http://127.0.0.1:9/\", \"http://example.com/a\"]"⟩
      ["http://example.com/a", "http://127.0.0.1:9/", "http://example.com/a"]
      (by decide)).2.2.1 "http://example.com/a").trans (by decide),
    (HandlerT_fetch_once_each json.DecodeStrings plainNet [] ⟨"POST", "[]"⟩ []
      (by decide)).2.2.2.2.1 rfl⟩

/-- C10: schedule independence.  For every completion order `sched` that is a
permutation of the goroutines, the handler gets past the barrier and the array it
sends is the one obtained when the goroutines complete in input order, namely the
pointwise map of the slot rule over `urls`; and each slot `i` is assigned exactly once
during the run, by the goroutine launched for index `i`. -/
theorem Handler_schedule_independent (Decode : json.Decoder) (net : Transport)
    (sched : List Nat) (r : http.Request) (urls : List String)
    (hd : Decode r.Body = (urls, none)) (hp : sched.Perm (List.range urls.length)) :
    (Handler Decode net sched r).response
        = (Handler Decode net (List.range urls.length) r).response
      ∧ (Handler Decode net sched r).response
        = some ⟨http.StatusOK, "application/json",
            http.Payload.jsonArray (urls.enum.map fun p =>
              match fetcher.Fetch (net p.1) p.2 with
              | (_, some err) => "Erreur: " ++ err.Error
              | (data, none) => data)⟩
      ∧ ∀ i, i < urls.length →
          (stores (Handler Decode net sched r).events).filter (fun p => p.2 = i)
            = [(i, i)] := by
  have hc : ∀ g, g < urls.length → g ∈ sched := fun g hg =>
    hp.mem_iff.2 (List.mem_range.2 hg)
  have hc0 : ∀ g, g < urls.length → g ∈ List.range urls.length := fun g hg =>
    List.mem_range.2 hg
  refine ⟨?_, ?_, ?_⟩
  · rw [Handler_complete Decode net sched r urls hd hc,
      Handler_complete Decode net _ r urls hd hc0]
  · rw [Handler_complete Decode net sched r urls hd hc, entries_eq_rule]
  · intro i hi
    rw [stores_Handler Decode net sched r urls hd]
    exact stores_complete net urls sched hc i hi

/-- Witness for C10: three goroutines completing in the order 2, 0, 1. -/
theorem Handler_schedule_independent_witness :
    (Handler json.DecodeStrings sampleNet [2, 0, 1]
        ⟨"POST", "[\"a\", \"bad\", \"c\"]"⟩).response
        = (Handler json.DecodeStrings sampleNet (List.range ["a", "bad", "c"].length)
            ⟨"POST", "[\"a\", \"bad\", \"c\"]"⟩).response
      ∧ (Handler json.DecodeStrings sampleNet [2, 0, 1]
        ⟨"POST", "[\"a\", \"bad\", \"c\"]"⟩).response
        = some ⟨http.StatusOK, "application/json",
            http.Payload.jsonArray (["a", "bad", "c"].enum.map fun p =>
              match fetcher.Fetch (sampleNet p.1) p.2 with
              | (_, some err) => "Erreur: " ++ err.Error
              | (data, none) => data)⟩
      ∧ ∀ i, i < ["a", "bad", "c"].length →
          (stores (Handler json.DecodeStrings sampleNet [2, 0, 1]
            ⟨"POST", "[\"a\", \"bad\", \"c\"]"⟩).events).filter (fun p => p.2 = i)
            = [(i, i)] :=
  Handler_schedule_independent json.DecodeStrings sampleNet [2, 0, 1]
    ⟨"POST", "[\"a\", \"bad\", \"c\"]"⟩ ["a", "bad", "c"] (by decide) (by decide)

end api

/-! ## The route -/

namespace main

/-- C9: on the `/multi-fetch` route a request whose method is not POST is answered with
405 and `Méthode non autorisée` and nothing else happens (no decoding, no fetch); a
POST request is handled exactly as `api.Handler` handles it. -/
theorem multiFetch_method_gate (Decode : json.Decoder) (net : api.Transport)
    (sched : List Nat) (r : http.Request) :
    (r.Method ≠ "POST" →
        multiFetch Decode net sched r
          = ⟨[], some ⟨405, "text/plain; charset=utf-8",
              http.Payload.text "Méthode non autorisée\n"⟩⟩)
      ∧ (r.Method = "POST" →
          multiFetch Decode net sched r = api.Handler Decode net sched r) := by
  constructor
  · intro h
    have h' : r.Method ≠ http.MethodPost := h
    unfold multiFetch
    rw [if_pos h']
    rfl
  · intro h
    have h' : ¬ r.Method ≠ http.MethodPost := fun hne => hne h
    unfold multiFetch
    rw [if_neg h']

/-- Witness for C9: a GET request with a well-formed batch as body. -/
theorem multiFetch_method_gate_witness :
    multiFetch json.DecodeStrings api.sampleNet [0] ⟨"GET", "[\"a\"]"⟩
      = ⟨[], some ⟨405, "text/plain; charset=utf-8",
          http.Payload.text "Méthode non autorisée\n"⟩⟩ :=
  (multiFetch_method_gate json.DecodeStrings api.sampleNet [0] ⟨"GET", "[\"a\"]"⟩).1
    (by decide)

end main
